import Mathlib

/-!
Shallow embedding of the Smart DCA dashboard engine (src/app.py) and proofs
about it.

Modelling conventions:
* Close prices are exact rationals (ℚ).  The source works with numpy/pandas
  float64 values; all claim-relevant arithmetic (means, max, the two ratio
  computations and the strict comparisons against 0.20 / -0.20) is exact on
  the rational reading.
* A pandas DataFrame of closes is a chronologically ascending `List ℚ`.
* The yfinance fetch (`yf.Ticker(t).history(period="2y")`, which may raise)
  is an oracle `String → Option (List ℚ)`: `none` models any raised
  exception, which the source catches per ticker and skips (lines 88-91).
* `rolling(window=200).mean().iloc[-1]` on a series of length ≥ 200 is the
  arithmetic mean of the final 200 closes; `tail(252)` is the final
  min(252, length) closes; `.max()` / `.mean()` are maximum and mean.
* Division by zero: numpy float64 division by zero does not raise, it emits a
  warning and propagates a non-finite value (inf/NaN); every strict comparison
  against a NaN is False.  In the ℚ model `x / 0 = 0`, and every strict
  comparison of 0 against itself is also false, so on the inputs where a zero
  denominator actually arises (an all-zero close series) both readings take
  the same branch of the classification and append the same-status row.
-/

namespace SmartDCA

/-- Valuation states assigned by the classification rules (src/app.py lines
54-75).  `DeepValue` renders in the source as the string "Deep Value Buy",
`SmartBuy` as "Smart Buy". -/
inductive Status where
  | Standard
  | Overextended
  | DeepValue
  | SmartBuy
deriving DecidableEq

/-- The hard-coded ticker basket (src/app.py line 21). -/
def TICKERS : List String :=
  ["SPY", "VT", "TSLA", "AAPL", "MSFT", "AMZN", "NFLX", "NVDA", "PLTR", "META", "GOOGL"]

/-- One row of the frame built by `get_market_data` (src/app.py lines 77-86). -/
structure AssetRow where
  ticker : String
  price : ℚ
  dma200 : ℚ
  dmaDiff : ℚ
  drawdown : ℚ
  multiplier : ℚ
  status : Status
  badge : String
deriving DecidableEq

/-- `current_price = df['Close'].iloc[-1]` (line 39); only reached on a
nonempty series (line 36 skips empty frames). -/
def lastClose (closes : List ℚ) : ℚ := closes.getLastD 0

/-- Arithmetic mean, as pandas `Series.mean()` on a nonempty series. -/
def mean (l : List ℚ) : ℚ := l.sum / (l.length : ℚ)

/-- Maximum of a nonempty series, as pandas `Series.max()`. -/
def maxClose : List ℚ → ℚ
  | [] => 0
  | x :: xs => xs.foldl max x

/-- 200-day moving average (lines 42-45): `rolling(window=200).mean().iloc[-1]`
is the mean of the final 200 closes when the series has at least 200 points;
otherwise the source falls back to the mean of the whole series. -/
def dma200 (closes : List ℚ) : ℚ :=
  if 200 ≤ closes.length then mean (closes.drop (closes.length - 200))
  else mean closes

/-- The trailing 252-point window `df['Close'].tail(252)` (line 48). -/
def tail252 (closes : List ℚ) : List ℚ := closes.drop (closes.length - 252)

/-- `year_high = df['Close'].tail(252).max()` (line 48). -/
def yearHigh (closes : List ℚ) : ℚ := maxClose (tail252 closes)

/-- `drawdown = (current_price - year_high) / year_high` (line 49). -/
def drawdown (closes : List ℚ) : ℚ :=
  (lastClose closes - yearHigh closes) / yearHigh closes

/-- `dma_diff_pct = (current_price - dma_200) / dma_200` (line 52). -/
def dmaDiff (closes : List ℚ) : ℚ :=
  (lastClose closes - dma200 closes) / dma200 closes

/-- The if/elif classification chain (lines 54-75), returning
(status, multiplier, badge class).  The defaults `Standard`, 1.0,
"badge-standard" are overwritten exactly when one of the three branches
fires; `0.20` is `1/5` and the multipliers 0.0, 2.0, 1.5, 1.0 are
0, 2, 3/2, 1. -/
def classify (c a dev dd : ℚ) : Status × ℚ × String :=
  if c > a ∧ dev > 1/5 then (Status.Overextended, 0, "badge-trim")
  else if c < a ∧ dd < -(1/5) then (Status.DeepValue, 2, "badge-deep")
  else if c < a then (Status.SmartBuy, 3/2, "badge-smart")
  else (Status.Standard, 1, "badge-standard")

/-- Per-ticker body of the `get_market_data` loop (lines 31-86): an empty
history is skipped (`if df.empty: continue`, lines 36-37), otherwise the
indicators are computed and a row is appended. -/
def computeRow (ticker : String) (closes : List ℚ) : Option AssetRow :=
  if closes.isEmpty then none
  else
    some { ticker := ticker,
           price := lastClose closes,
           dma200 := dma200 closes,
           dmaDiff := dmaDiff closes,
           drawdown := drawdown closes,
           multiplier := (classify (lastClose closes) (dma200 closes)
                            (dmaDiff closes) (drawdown closes)).2.1,
           status := (classify (lastClose closes) (dma200 closes)
                            (dmaDiff closes) (drawdown closes)).1,
           badge := (classify (lastClose closes) (dma200 closes)
                            (dmaDiff closes) (drawdown closes)).2.2 }

/-- `get_market_data` (lines 25-93): sequential per-ticker loop; a raised
fetch exception (modelled as `none` from the oracle) or an empty history
skips that ticker and the loop continues with the rest. -/
def get_market_data (tickers : List String)
    (fetch : String → Option (List ℚ)) : List AssetRow :=
  tickers.filterMap fun t => (fetch t).bind (computeRow t)

/-- Outcome of the compute section of `main` (lines 125-150): either the
single "Could not fetch data" error with an early return (lines 128-130),
or the populated table: per-asset rows paired with their `Invest_Amount`,
plus `total_smart_dca`, `active_multiplier` and the `opportunities` count. -/
inductive MainResult where
  | fetchError : MainResult
  | ok : List (AssetRow × ℚ) → ℚ → ℚ → Nat → MainResult
deriving DecidableEq

/-- The allocation logic of `main` (lines 125-150): if the frame is empty,
show one error and return; otherwise `base_per_asset = base_contribution /
len(df)`, `Invest_Amount = base_per_asset * Multiplier` per row,
`total_smart_dca` their sum, `active_multiplier = total / base` guarded by
`base > 0`, and `opportunities = len(df[df.Multiplier > 1.0])`. -/
def runMain (base_contribution : ℚ) (tickers : List String)
    (fetch : String → Option (List ℚ)) : MainResult :=
  let df := get_market_data tickers fetch
  if df.isEmpty then MainResult.fetchError
  else
    let base_per_asset := base_contribution / (df.length : ℚ)
    let rows := df.map fun r => (r, base_per_asset * r.multiplier)
    let total_smart_dca := (rows.map Prod.snd).sum
    let active_multiplier :=
      if 0 < base_contribution then total_smart_dca / base_contribution else 0
    let opportunities := (df.filter fun r => 1 < r.multiplier).length
    MainResult.ok rows total_smart_dca active_multiplier opportunities

/-- The fixed state → multiplier table from the specification, stated
independently of the classification code so the two can be compared. -/
def multiplierTable : Status → ℚ
  | Status.Overextended => 0
  | Status.DeepValue => 2
  | Status.SmartBuy => 3/2
  | Status.Standard => 1

/-- The initial value of a max-fold is a lower bound of the result. -/
theorem init_le_foldl_max (xs : List ℚ) (x : ℚ) : x ≤ xs.foldl max x := by
  induction xs generalizing x with
  | nil => exact le_refl x
  | cons z zs ih => exact le_trans (le_max_left x z) (ih (max x z))

/-- Every listed value is a lower bound of a max-fold over the list. -/
theorem mem_le_foldl_max (xs : List ℚ) (x y : ℚ) (hy : y ∈ xs) :
    y ≤ xs.foldl max x := by
  induction xs generalizing x with
  | nil => cases hy
  | cons z zs ih =>
    rcases List.mem_cons.mp hy with rfl | hz
    · exact le_trans (le_max_right x y) (init_le_foldl_max zs (max x y))
    · exact ih (max x z) hz

/-- A max-fold returns its initial value or a listed value. -/
theorem foldl_max_mem (xs : List ℚ) (x : ℚ) :
    xs.foldl max x = x ∨ xs.foldl max x ∈ xs := by
  induction xs generalizing x with
  | nil => exact Or.inl rfl
  | cons z zs ih =>
    rcases ih (max x z) with hax | hmem
    · rcases max_choice x z with hx | hz
      · exact Or.inl (by rw [List.foldl_cons, hax, hx])
      · exact Or.inr (List.mem_cons.mpr (Or.inl (by rw [List.foldl_cons, hax, hz])))
    · exact Or.inr (List.mem_cons.mpr (Or.inr hmem))

/-- `maxClose` of a nonempty series is one of its values. -/
theorem maxClose_mem {l : List ℚ} (h : l ≠ []) : maxClose l ∈ l := by
  cases l with
  | nil => exact absurd rfl h
  | cons x xs =>
    rcases foldl_max_mem xs x with hx | hmem
    · exact List.mem_cons.mpr (Or.inl (by rw [maxClose, hx]))
    · exact List.mem_cons.mpr (Or.inr (by rw [maxClose]; exact hmem))

/-- `maxClose` bounds every value of the series from above. -/
theorem le_maxClose {l : List ℚ} {y : ℚ} (hy : y ∈ l) : y ≤ maxClose l := by
  cases l with
  | nil => cases hy
  | cons x xs =>
    rcases List.mem_cons.mp hy with rfl | hz
    · exact init_le_foldl_max xs y
    · exact mem_le_foldl_max xs x y hz

/-- `lastClose` of a nonempty series is its `getLast`. -/
theorem lastClose_eq_getLast (l : List ℚ) (h : l ≠ []) :
    lastClose l = l.getLast h := by
  rw [lastClose, List.getLastD_eq_getLast?, List.getLast?_eq_getLast_of_ne_nil h,
    Option.getD_some]

/-- `lastClose` ignores any prefix in front of a nonempty suffix. -/
theorem lastClose_append (pre suf : List ℚ) (h : suf ≠ []) :
    lastClose (pre ++ suf) = lastClose suf := by
  have hne : pre ++ suf ≠ [] := by simp [h]
  rw [lastClose_eq_getLast _ hne, lastClose_eq_getLast _ h]
  exact List.getLast_append' pre suf h

/-- `lastClose` of a nonempty series is one of its values. -/
theorem lastClose_mem {l : List ℚ} (h : l ≠ []) : lastClose l ∈ l := by
  rw [lastClose_eq_getLast l h]; exact List.getLast_mem h

/-- C2: for every nonempty close series, currentPrice is the last close;
the trend average is the mean of a trailing window of exactly 200 closes
containing the current point when the series has at least 200 points, and
the mean of the entire series otherwise; the trailing high is attained on,
and bounds, a trailing window of min(252, length) closes; and drawdown and
trend deviation are the two ratio formulas. -/
theorem C2_indicators (closes : List ℚ) (h : closes ≠ []) :
    lastClose closes = closes.getLast h ∧
    (200 ≤ closes.length →
      ∃ pre win, closes = pre ++ win ∧ win.length = 200 ∧
        lastClose closes ∈ win ∧ dma200 closes = win.sum / 200) ∧
    (closes.length < 200 →
      dma200 closes = closes.sum / (closes.length : ℚ)) ∧
    (∃ pre win, closes = pre ++ win ∧ win.length = min 252 closes.length ∧
      yearHigh closes ∈ win ∧ (∀ x ∈ win, x ≤ yearHigh closes)) ∧
    drawdown closes = (lastClose closes - yearHigh closes) / yearHigh closes ∧
    dmaDiff closes = (lastClose closes - dma200 closes) / dma200 closes := by
  have hlen : 0 < closes.length := List.length_pos.mpr h
  refine ⟨lastClose_eq_getLast closes h, ?_, ?_, ?_, rfl, rfl⟩
  · intro h200
    set k := closes.length - 200 with hk
    have hsplit : closes = closes.take k ++ closes.drop k :=
      (List.take_append_drop k closes).symm
    have hwlen : (closes.drop k).length = 200 := by
      rw [List.length_drop]; omega
    have hwne : closes.drop k ≠ [] := by
      intro hnil; rw [hnil] at hwlen; simp at hwlen
    refine ⟨closes.take k, closes.drop k, hsplit, hwlen, ?_, ?_⟩
    · have : lastClose closes = lastClose (closes.drop k) := by
        conv_lhs => rw [hsplit]
        exact lastClose_append _ _ hwne
      rw [this]; exact lastClose_mem hwne
    · rw [dma200, if_pos h200, mean, hwlen]; norm_num
  · intro hlt
    rw [dma200, if_neg (by omega), mean]
  · set k := closes.length - 252 with hk
    have hsplit : closes = closes.take k ++ closes.drop k :=
      (List.take_append_drop k closes).symm
    have hwlen : (closes.drop k).length = min 252 closes.length := by
      rw [List.length_drop]; omega
    have hwne : closes.drop k ≠ [] := by
      intro hnil
      rw [hnil] at hwlen
      simp only [List.length_nil] at hwlen
      omega
    refine ⟨closes.take k, closes.drop k, hsplit, hwlen, ?_, ?_⟩
    · exact maxClose_mem hwne
    · intro x hx
      exact le_maxClose hx

/-- C2 witness: the spec's flat series — 300 closes all equal to 100 — has a
trailing window of exactly 200 closes containing the current point whose
mean is the trend average. -/
theorem C2_indicators_witness :
    ∃ pre win, List.replicate 300 (100 : ℚ) = pre ++ win ∧ win.length = 200 ∧
      lastClose (List.replicate 300 (100 : ℚ)) ∈ win ∧
      dma200 (List.replicate 300 (100 : ℚ)) = win.sum / 200 :=
  (C2_indicators (List.replicate 300 (100 : ℚ))
      (List.ne_nil_of_length_pos (by rw [List.length_replicate]; norm_num))).2.1
    (by rw [List.length_replicate]; norm_num)

/-- C7: on every nonempty series of positive closes (the data model's price
domain) the drawdown is nonpositive, and it is zero exactly when the current
price equals the trailing high. -/
theorem C7_drawdown_nonpos (closes : List ℚ) (h : closes ≠ [])
    (hpos : ∀ x ∈ closes, 0 < x) :
    drawdown closes ≤ 0 ∧
      (drawdown closes = 0 ↔ lastClose closes = yearHigh closes) := by
  have hlen : 0 < closes.length := List.length_pos.mpr h
  set k := closes.length - 252 with hk
  have hsplit : closes = closes.take k ++ closes.drop k :=
    (List.take_append_drop k closes).symm
  have hwne : closes.drop k ≠ [] := by
    intro hnil
    have := congrArg List.length hnil
    rw [List.length_drop] at this
    simp only [List.length_nil] at this
    omega
  have hcmem : lastClose closes ∈ closes.drop k := by
    have : lastClose closes = lastClose (closes.drop k) := by
      conv_lhs => rw [hsplit]
      exact lastClose_append _ _ hwne
    rw [this]; exact lastClose_mem hwne
  have hle : lastClose closes ≤ yearHigh closes := le_maxClose hcmem
  have hhmem : yearHigh closes ∈ closes := List.drop_subset k closes (maxClose_mem hwne)
  have hhpos : 0 < yearHigh closes := hpos _ hhmem
  constructor
  · rw [drawdown]
    exact div_nonpos_of_nonpos_of_nonneg (sub_nonpos.mpr hle) hhpos.le
  · rw [drawdown, div_eq_zero_iff, sub_eq_zero]
    constructor
    · rintro (hc | hz)
      · exact hc
      · exact absurd hz hhpos.ne'
    · intro hc; exact Or.inl hc

/-- C7 witness: the one-point series [100] has drawdown 0 and current price
equal to the trailing high. -/
theorem C7_drawdown_nonpos_witness :
    drawdown [(100 : ℚ)] ≤ 0 ∧
      (drawdown [(100 : ℚ)] = 0 ↔ lastClose [(100 : ℚ)] = yearHigh [(100 : ℚ)]) :=
  C7_drawdown_nonpos [(100 : ℚ)] (by simp) (by simp)

/-- C1: classification is a deterministic, ordered, first-match-wins
evaluation: rule 1 (price above trend and deviation > 0.20) gives
Overextended/0.0; failing that, rule 2 (price below trend and drawdown
< -0.20) gives DeepValue/2.0; failing that, rule 3 (price below trend)
gives SmartBuy/1.5; otherwise Standard/1.0.  Exactly one state is assigned
(classification is a total function) and the produced multiplier always
agrees with the fixed table. -/
theorem C1_classification (c a dev dd : ℚ) :
    (c > a ∧ dev > 1/5 →
      classify c a dev dd = (Status.Overextended, 0, "badge-trim")) ∧
    (¬(c > a ∧ dev > 1/5) → c < a ∧ dd < -(1/5) →
      classify c a dev dd = (Status.DeepValue, 2, "badge-deep")) ∧
    (¬(c > a ∧ dev > 1/5) → ¬(c < a ∧ dd < -(1/5)) → c < a →
      classify c a dev dd = (Status.SmartBuy, 3/2, "badge-smart")) ∧
    (¬(c > a ∧ dev > 1/5) → ¬(c < a ∧ dd < -(1/5)) → ¬(c < a) →
      classify c a dev dd = (Status.Standard, 1, "badge-standard")) ∧
    (classify c a dev dd).2.1 = multiplierTable (classify c a dev dd).1 := by
  unfold classify
  split_ifs with h1 h2 h3 <;> simp_all [multiplierTable]

/-- C1 witness: the spec scenario for ticker "B" — currentPrice 130, trend
average 100, trendDeviation 0.30 — fires the first rule: Overextended,
multiplier 0. -/
theorem C1_classification_witness :
    classify 130 100 (3/10) 0 = (Status.Overextended, 0, "badge-trim") :=
  (C1_classification 130 100 (3/10) 0).1 (by norm_num)

/-- C10: all threshold comparisons are strict, so boundary values fall
through to the next rule: price exactly equal to the trend average gives
Standard/1.0 whatever the drawdown; deviation exactly 0.20 with price above
trend is not Overextended but Standard; drawdown exactly -0.20 with price
below trend is SmartBuy/1.5, not DeepValue. -/
theorem C10_strict_thresholds (c a dev dd : ℚ) :
    (c = a → classify c a dev dd = (Status.Standard, 1, "badge-standard")) ∧
    (c > a → classify c a (1/5) dd = (Status.Standard, 1, "badge-standard")) ∧
    (c < a → classify c a dev (-(1/5)) = (Status.SmartBuy, 3/2, "badge-smart")) := by
  refine ⟨?_, ?_, ?_⟩
  · rintro rfl
    simp [classify, lt_irrefl]
  · intro h
    simp [classify, lt_irrefl, h.not_lt]
  · intro h
    simp [classify, lt_irrefl, h, h.not_lt]

/-- C10 witness: at the three boundary inputs (price = trend 100 with
drawdown -0.9; price 120 over trend 100 with deviation exactly 0.20;
price 80 under trend 100 with drawdown exactly -0.20) the code yields
Standard, Standard and SmartBuy respectively. -/
theorem C10_strict_thresholds_witness :
    classify 100 100 5 (-(9/10)) = (Status.Standard, 1, "badge-standard") ∧
    classify 120 100 (1/5) 0 = (Status.Standard, 1, "badge-standard") ∧
    classify 80 100 (-(1/5)) (-(1/5)) = (Status.SmartBuy, 3/2, "badge-smart") :=
  ⟨(C10_strict_thresholds 100 100 5 (-(9/10))).1 rfl,
   (C10_strict_thresholds 120 100 0 0).2.1 (by norm_num),
   (C10_strict_thresholds 80 100 (-(1/5)) 0).2.2 (by norm_num)⟩

/-- C3: for every run with at least one surviving ticker, each asset's
investment amount is (totalContribution / n) × its multiplier, where n is the
number of successfully classified tickers, the rows are exactly the classified
frame, and the total invested equals totalContribution × (mean multiplier);
no rescaling back to the contribution ever happens. -/
theorem C3_allocation (C : ℚ) (tickers : List String)
    (fetch : String → Option (List ℚ))
    (h : get_market_data tickers fetch ≠ []) :
    ∃ rows tot am opp, runMain C tickers fetch = MainResult.ok rows tot am opp ∧
      rows.map Prod.fst = get_market_data tickers fetch ∧
      (∀ p ∈ rows,
        p.2 = C / ((get_market_data tickers fetch).length : ℚ) * p.1.multiplier) ∧
      tot = C * (((get_market_data tickers fetch).map AssetRow.multiplier).sum /
        ((get_market_data tickers fetch).length : ℚ)) := by
  set df := get_market_data tickers fetch with hdf
  set b : ℚ := C / (df.length : ℚ) with hb
  have hne : ¬ df.isEmpty = true := by simp [List.isEmpty_iff, h]
  have hrun : runMain C tickers fetch = MainResult.ok
      (df.map fun r => (r, b * r.multiplier))
      (((df.map fun r => (r, b * r.multiplier)).map Prod.snd).sum)
      (if 0 < C then
        ((df.map fun r => (r, b * r.multiplier)).map Prod.snd).sum / C else 0)
      ((df.filter fun r => 1 < r.multiplier).length) := by
    simp only [runMain, ← hdf, ← hb]
    rw [if_neg hne]
  refine ⟨_, _, _, _, hrun, ?_, ?_, ?_⟩
  · rw [List.map_map]
    have hcomp : (Prod.fst ∘ fun r : AssetRow => (r, b * r.multiplier)) = id := rfl
    rw [hcomp, List.map_id]
  · intro p hp
    rcases List.mem_map.mp hp with ⟨r, _, rfl⟩
    rfl
  · rw [List.map_map]
    have hcomp : (Prod.snd ∘ fun r : AssetRow => (r, b * r.multiplier)) =
        fun r : AssetRow => b * r.multiplier := rfl
    rw [hcomp, List.sum_map_mul_left, hb, div_mul_eq_mul_div, mul_div_assoc]

/-- C3 witness: one ticker with a flat one-point history at 100 and a
contribution of 1000: the single amount is 1000/1 × 1 and the total is
1000 × (mean multiplier). -/
theorem C3_allocation_witness :
    ∃ rows tot am opp, runMain 1000 ["A"] (fun _ => some [(100 : ℚ)]) =
        MainResult.ok rows tot am opp ∧
      rows.map Prod.fst = get_market_data ["A"] (fun _ => some [(100 : ℚ)]) ∧
      (∀ p ∈ rows, p.2 = 1000 /
        ((get_market_data ["A"] (fun _ => some [(100 : ℚ)])).length : ℚ) *
          p.1.multiplier) ∧
      tot = 1000 * (((get_market_data ["A"]
          (fun _ => some [(100 : ℚ)])).map AssetRow.multiplier).sum /
        ((get_market_data ["A"] (fun _ => some [(100 : ℚ)])).length : ℚ)) :=
  C3_allocation 1000 ["A"] (fun _ => some [(100 : ℚ)]) (by decide)

/-- C4: per-ticker failures are isolated.  With two tickers of which the
second fails fetch (the oracle raises, modelled as `none`) and the first has
a usable history, the frame has exactly one row, for the surviving ticker,
and its amount is computed with denominator 1 (base share totalContribution
/ 1), not 2. -/
theorem C4_isolation (C : ℚ) (t1 t2 : String) (closes : List ℚ)
    (fetch : String → Option (List ℚ))
    (h1 : fetch t1 = some closes) (h2 : fetch t2 = none) (hne : closes ≠ []) :
    (get_market_data [t1, t2] fetch).length = 1 ∧
    ∃ r tot am opp, runMain C [t1, t2] fetch =
        MainResult.ok [(r, C / 1 * r.multiplier)] tot am opp ∧
      r.ticker = t1 := by
  have hcr : ∃ r, computeRow t1 closes = some r ∧ r.ticker = t1 := by
    rw [computeRow, if_neg (by simp [List.isEmpty_iff, hne])]
    exact ⟨_, rfl, rfl⟩
  obtain ⟨r, hr, hticker⟩ := hcr
  have hdf : get_market_data [t1, t2] fetch = [r] := by
    simp [get_market_data, h1, h2, hr]
  have hrun : runMain C [t1, t2] fetch =
      MainResult.ok [(r, C / 1 * r.multiplier)]
        (([(r, C / 1 * r.multiplier)].map Prod.snd).sum)
        (if 0 < C then (([(r, C / 1 * r.multiplier)].map Prod.snd).sum) / C else 0)
        ((([r] : List AssetRow).filter fun x => 1 < x.multiplier).length) := by
    simp only [runMain, hdf]
    rw [if_neg (by simp)]
    rw [show (([r] : List AssetRow).map fun x =>
        (x, C / (([r] : List AssetRow).length : ℚ) * x.multiplier)) =
        [(r, C / 1 * r.multiplier)] by norm_num]
  exact ⟨by rw [hdf]; rfl, r, _, _, _, hrun, hticker⟩

/-- C4 witness: tickers "A" (history [100]) and "B" (fetch fails): exactly
one row survives, for "A", and its amount uses base share C / 1. -/
theorem C4_isolation_witness :
    (get_market_data ["A", "B"]
      (fun t => if t = "A" then some [(100 : ℚ)] else none)).length = 1 ∧
    ∃ r tot am opp, runMain 1000 ["A", "B"]
        (fun t => if t = "A" then some [(100 : ℚ)] else none) =
        MainResult.ok [(r, 1000 / 1 * r.multiplier)] tot am opp ∧
      r.ticker = "A" :=
  C4_isolation 1000 "A" "B" [(100 : ℚ)]
    (fun t => if t = "A" then some [(100 : ℚ)] else none)
    (by decide) (by decide) (by decide)

/-- C8: if every ticker fails fetch or computation, `get_market_data` returns
an empty frame (no exception reaches the caller), and `main` takes the single
"Could not fetch data" error path and returns before the base-share division
is ever evaluated. -/
theorem C8_all_tickers_fail (C : ℚ) (tickers : List String)
    (fetch : String → Option (List ℚ))
    (h : ∀ t ∈ tickers, (fetch t).bind (computeRow t) = none) :
    get_market_data tickers fetch = [] ∧
      runMain C tickers fetch = MainResult.fetchError := by
  have hdf : get_market_data tickers fetch = [] := by
    rw [get_market_data, List.filterMap_eq_nil_iff]
    exact h
  exact ⟨hdf, by simp [runMain, hdf]⟩

/-- C8 witness: two tickers whose fetches both fail: empty frame and the
single error outcome. -/
theorem C8_all_tickers_fail_witness :
    get_market_data ["A", "B"] (fun _ => none) = [] ∧
      runMain 1000 ["A", "B"] (fun _ => none) = MainResult.fetchError :=
  C8_all_tickers_fail 1000 ["A", "B"] (fun _ => none) (fun _ _ => rfl)

/-- C5 counterexample: with a negative contribution of -100 and one healthy
ticker, the run does not fail fast and produces a full result: one row with
a negative investment amount of -100.  No input validation exists in the
code (the number input at line 122 has no lower bound and `main` never
checks the sign), contradicting the claimed InvalidInput fail-fast. -/
theorem C5_negative_contribution_cex :
    runMain (-100) ["A"] (fun _ => some [(100 : ℚ)]) =
      MainResult.ok
        [({ ticker := "A", price := 100, dma200 := 100, dmaDiff := 0,
            drawdown := 0, multiplier := 1, status := Status.Standard,
            badge := "badge-standard" }, -100)]
        (-100) 0 0 := by
  have hrow : computeRow "A" [(100 : ℚ)] =
      some { ticker := "A", price := 100, dma200 := 100, dmaDiff := 0,
             drawdown := 0, multiplier := 1, status := Status.Standard,
             badge := "badge-standard" } := by
    norm_num [computeRow, lastClose, dma200, mean, yearHigh, tail252, maxClose,
      drawdown, dmaDiff, classify]
  have hdf : get_market_data ["A"] (fun _ => some [(100 : ℚ)]) =
      [{ ticker := "A", price := 100, dma200 := 100, dmaDiff := 0,
         drawdown := 0, multiplier := 1, status := Status.Standard,
         badge := "badge-standard" }] := by
    simp [get_market_data, hrow]
  norm_num [runMain, hdf]

/-- C5 amended: the code performs no validation of the whole-batch inputs.
A negative total contribution flows straight through the allocation and
yields a (nonempty) result with amounts scaled by the negative base share;
an empty ticker list is not rejected before fetch with a distinguished
InvalidInput error — it simply produces an empty frame and ends in the
single "could not fetch" error path with no allocation result. -/
theorem C5_no_input_validation (C : ℚ) (tickers : List String)
    (fetch : String → Option (List ℚ)) (_hC : C < 0)
    (h : get_market_data tickers fetch ≠ []) :
    (∃ rows tot am opp, runMain C tickers fetch = MainResult.ok rows tot am opp ∧
        rows ≠ []) ∧
    runMain C [] fetch = MainResult.fetchError := by
  constructor
  · obtain ⟨rows, tot, am, opp, hrun, hfst, -, -⟩ := C3_allocation C tickers fetch h
    refine ⟨rows, tot, am, opp, hrun, ?_⟩
    intro hnil
    rw [hnil] at hfst
    exact h hfst.symm
  · rfl

/-- C5 witness: contribution -100, one healthy ticker. -/
theorem C5_no_input_validation_witness :
    (∃ rows tot am opp, runMain (-100) ["A"] (fun _ => some [(100 : ℚ)]) =
        MainResult.ok rows tot am opp ∧ rows ≠ []) ∧
    runMain (-100) [] (fun _ => some [(100 : ℚ)]) = MainResult.fetchError :=
  C5_no_input_validation (-100) ["A"] (fun _ => some [(100 : ℚ)])
    (by norm_num) (by decide)

/-- C6 counterexample: a one-point series at price 0 makes both trailingHigh
and trendAverage zero, yet the ticker is NOT excluded: numpy float64
division by zero does not raise (it warns and propagates a non-finite
value, with which every strict comparison is false — mirrored exactly by
x / 0 = 0 in ℚ), so the except branch never fires and a Standard row with
multiplier 1 is appended. -/
theorem C6_zero_denominator_cex :
    yearHigh [(0 : ℚ)] = 0 ∧ dma200 [(0 : ℚ)] = 0 ∧
    get_market_data ["A"] (fun _ => some [(0 : ℚ)]) =
      [{ ticker := "A", price := 0, dma200 := 0, dmaDiff := 0, drawdown := 0,
         multiplier := 1, status := Status.Standard,
         badge := "badge-standard" }] := by
  have hrow : computeRow "A" [(0 : ℚ)] =
      some { ticker := "A", price := 0, dma200 := 0, dmaDiff := 0,
             drawdown := 0, multiplier := 1, status := Status.Standard,
             badge := "badge-standard" } := by
    norm_num [computeRow, lastClose, dma200, mean, yearHigh, tail252, maxClose,
      drawdown, dmaDiff, classify]
  refine ⟨?_, ?_, ?_⟩
  · norm_num [yearHigh, tail252, maxClose]
  · norm_num [dma200, mean]
  · simp [get_market_data, hrow]

/-- C6 amended: a ticker whose trailing high and trend average resolve to
zero (an all-zero close series) is not excluded and no DivisionByZero error
occurs: the division falls through every strict comparison, the ticker is
classified Standard with multiplier 1 and its row stays in the batch. -/
theorem C6_zero_denominator_not_excluded (t : String) (closes : List ℚ)
    (h : closes ≠ []) (h0 : ∀ x ∈ closes, x = 0) :
    yearHigh closes = 0 ∧ dma200 closes = 0 ∧
    ∃ r, computeRow t closes = some r ∧ r.status = Status.Standard ∧
      r.multiplier = 1 := by
  have hlen : 0 < closes.length := List.length_pos.mpr h
  have hwne : closes.drop (closes.length - 252) ≠ [] := by
    intro hnil
    have := congrArg List.length hnil
    rw [List.length_drop] at this
    simp only [List.length_nil] at this
    omega
  have hyh : yearHigh closes = 0 :=
    h0 _ (List.drop_subset _ closes (maxClose_mem hwne))
  have hdma : dma200 closes = 0 := by
    rw [dma200]
    split_ifs with h200
    · rw [mean, List.sum_eq_zero fun x hx =>
        h0 x (List.drop_subset _ closes hx), zero_div]
    · rw [mean, List.sum_eq_zero h0, zero_div]
  have hlast : lastClose closes = 0 := h0 _ (lastClose_mem h)
  have hdd : drawdown closes = 0 := by
    rw [drawdown, hlast, hyh]; norm_num
  have hdev : dmaDiff closes = 0 := by
    rw [dmaDiff, hlast, hdma]; norm_num
  refine ⟨hyh, hdma, ?_⟩
  rw [computeRow, if_neg (by simp [List.isEmpty_iff, h])]
  refine ⟨_, rfl, ?_, ?_⟩
  · simp [hlast, hdma, hdev, hdd, classify]
  · simp [hlast, hdma, hdev, hdd, classify]

/-- C6 witness: the all-zero one-point series. -/
theorem C6_zero_denominator_witness :
    yearHigh [(0 : ℚ)] = 0 ∧ dma200 [(0 : ℚ)] = 0 ∧
    ∃ r, computeRow "Z" [(0 : ℚ)] = some r ∧ r.status = Status.Standard ∧
      r.multiplier = 1 :=
  C6_zero_denominator_not_excluded "Z" [(0 : ℚ)] (by decide) (by decide)

/-- C9 counterexample: the code never de-duplicates — the loop at line 30
iterates the list as given — so the duplicated input ["A", "A"] produces two
rows both carrying ticker "A": the returned rows DO contain duplicate
tickers, refuting the claimed de-duplication before fetch. -/
theorem C9_duplicate_tickers_cex :
    ((get_market_data ["A", "A"] (fun _ => some [(100 : ℚ)])).map
      AssetRow.ticker) = ["A", "A"] ∧
    ¬ ((get_market_data ["A", "A"] (fun _ => some [(100 : ℚ)])).map
      AssetRow.ticker).Nodup := by decide

/-- The tickers of the produced rows always form a sublist of the input
list: each loop iteration appends at most one row, carrying that
iteration's ticker. -/
theorem get_market_data_tickers_sublist (tickers : List String)
    (fetch : String → Option (List ℚ)) :
    ((get_market_data tickers fetch).map AssetRow.ticker).Sublist tickers := by
  induction tickers with
  | nil => simp [get_market_data]
  | cons t ts ih =>
    rw [get_market_data, List.filterMap_cons]
    cases hfb : (fetch t).bind (computeRow t) with
    | none =>
      exact List.Sublist.cons t (by rw [get_market_data] at ih; exact ih)
    | some r =>
      have hrt : r.ticker = t := by
        cases hf : fetch t with
        | none => rw [hf] at hfb; simp at hfb
        | some closes =>
          rw [hf, Option.some_bind, computeRow] at hfb
          by_cases hemp : closes.isEmpty = true
          · rw [if_pos hemp] at hfb
            simp at hfb
          · rw [if_neg hemp] at hfb
            injection hfb with hrec
            subst hrec
            rfl
      rw [List.map_cons, hrt]
      exact List.Sublist.cons₂ t (by rw [get_market_data] at ih; exact ih)

/-- C9 amended: no de-duplication happens; each occurrence of a ticker in
the input is fetched and, on success, yields its own row, so a duplicated
input produces duplicate rows.  Whenever the input list itself has no
duplicates — as with the hard-coded TICKERS basket — the produced rows have
no duplicate tickers, because the row tickers form a sublist of the input. -/
theorem C9_nodup_input_nodup_rows (tickers : List String)
    (fetch : String → Option (List ℚ)) (h : tickers.Nodup) :
    ((get_market_data tickers fetch).map AssetRow.ticker).Nodup :=
  List.Nodup.sublist (get_market_data_tickers_sublist tickers fetch) h

/-- C9 witness: the hard-coded TICKERS basket has no duplicates, so neither
do the produced rows. -/
theorem C9_nodup_input_nodup_rows_witness :
    ((get_market_data TICKERS (fun _ => some [(100 : ℚ)])).map
      AssetRow.ticker).Nodup :=
  C9_nodup_input_nodup_rows TICKERS (fun _ => some [(100 : ℚ)]) (by decide)

end SmartDCA
